import Mathlib

/-!
Shallow embedding of the wasm-verifier core (src/wasm-verifier/src/lib.rs).

Bytes (`u8`) are modelled as `Nat` values below 256, byte slices as
`List Nat`, Rust `String` as Lean `String`, `u64` as `Nat` (so Rust
`saturating_sub` is Lean truncated subtraction), and `Result<T, JsValue>`
as `Except String T`.  The clock read `js_sys::Date::now() as u64` inside
`verify` is passed explicitly as a `current_time : Nat` argument.
-/

/-! ## SHA3-256 (the `sha3` crate's `Sha3_256`, as invoked by the source) -/

/-- 64-bit rotate left on a `Nat` representing a `u64` lane. -/
def rotl64 (x n : Nat) : Nat :=
  ((x <<< n) ||| (x >>> (64 - n))) % 2 ^ 64

/-- One step of the degree-8 LFSR (`x^8 + x^6 + x^5 + x^4 + 1`) that
generates the Keccak round-constant bits. -/
def rcStep (r : Nat) : Nat :=
  ((r <<< 1) ^^^ ((r >>> 7) * 0x71)) % 256

/-- LFSR state after `t` steps, starting from 1. -/
def rcByte : Nat → Nat
  | 0 => 1
  | t + 1 => rcStep (rcByte t)

/-- Round constant of round `i`: LFSR output bits placed at bit
positions `2 ^ j - 1`. -/
def roundConst (i : Nat) : Nat :=
  (List.range 7).foldl (fun acc j => acc + (rcByte (j + 7 * i) % 2) * 2 ^ (2 ^ j - 1)) 0

/-- The 24 Keccak-f[1600] round constants. -/
def keccakRC : List Nat :=
  (List.range 24).map roundConst

/-- The ρ-offset generating walk: starting from lane `(1, 0)`, step `t`
assigns triangular number `(t + 1)(t + 2) / 2 mod 64` to the current lane
and moves to `(y, (2x + 3y) mod 5)`. -/
def rhoWalk : Nat → Nat → Nat → Nat → List (Nat × Nat)
  | 0, _, _, _ => []
  | n + 1, t, x, y =>
    (x + 5 * y, ((t + 1) * (t + 2) / 2) % 64) :: rhoWalk n (t + 1) y ((2 * x + 3 * y) % 5)

/-- Keccak rotation offsets, indexed by lane position `x + 5 * y` (lane
`(0, 0)` keeps offset 0). -/
def keccakRhoOff : List Nat :=
  (List.range 25).map fun i =>
    (((rhoWalk 24 0 1 0).find? fun p => p.1 == i).map Prod.snd).getD 0

/-- Lane `(x, y)` of a 25-lane state (coordinates taken mod 5). -/
def lane (s : List Nat) (x y : Nat) : Nat :=
  s.getD (x % 5 + 5 * (y % 5)) 0

/-- Keccak θ step. -/
def theta (s : List Nat) : List Nat :=
  let c : Nat → Nat := fun x =>
    lane s x 0 ^^^ lane s x 1 ^^^ lane s x 2 ^^^ lane s x 3 ^^^ lane s x 4
  let d : Nat → Nat := fun x => c ((x + 4) % 5) ^^^ rotl64 (c ((x + 1) % 5)) 1
  (List.range 25).map fun i => s.getD i 0 ^^^ d (i % 5)

/-- Keccak ρ and π steps combined: output lane `(x, y)` is the rotation of
input lane `((x + 3 * y) % 5, x)`. -/
def rhoPi (s : List Nat) : List Nat :=
  (List.range 25).map fun i =>
    let xo := i % 5
    let yo := i / 5
    let xs := (xo + 3 * yo) % 5
    rotl64 (lane s xs xo) (keccakRhoOff.getD (xs + 5 * xo) 0)

/-- Keccak χ step. -/
def chi (s : List Nat) : List Nat :=
  (List.range 25).map fun i =>
    let x := i % 5
    let y := i / 5
    lane s x y ^^^ ((lane s (x + 1) y ^^^ (2 ^ 64 - 1)) &&& lane s (x + 2) y)

/-- Keccak ι step: xor the round constant into lane 0. -/
def iota (rc : Nat) (s : List Nat) : List Nat :=
  match s with
  | [] => []
  | a :: rest => (a ^^^ rc) :: rest

/-- One Keccak round. -/
def keccakRound (s : List Nat) (rc : Nat) : List Nat :=
  iota rc (chi (rhoPi (theta s)))

/-- The Keccak-f[1600] permutation: 24 rounds. -/
def keccakF (s : List Nat) : List Nat :=
  keccakRC.foldl keccakRound s

/-- SHA3-256 rate in bytes. -/
def sha3Rate : Nat := 136

/-- SHA3 padding: domain byte 0x06, zero fill, final bit 0x80. -/
def sha3Pad (data : List Nat) : List Nat :=
  let q := sha3Rate - data.length % sha3Rate
  if q = 1 then data ++ [0x86]
  else data ++ 0x06 :: List.replicate (q - 2) 0 ++ [0x80]

/-- Combine up to eight bytes, little-endian, into one 64-bit lane. -/
def bytesToLane (bs : List Nat) : Nat :=
  bs.foldr (fun b acc => acc * 256 + b) 0

/-- The 17 rate lanes of one 136-byte block. -/
def blockLanes (block : List Nat) : List Nat :=
  (List.range 17).map fun j => bytesToLane ((block.drop (8 * j)).take 8)

/-- Absorb one 136-byte block into the state and permute. -/
def absorbBlock (s block : List Nat) : List Nat :=
  keccakF ((List.range 25).map fun i => s.getD i 0 ^^^ (blockLanes block).getD i 0)

/-- Absorb `n` consecutive 136-byte blocks of `data`. -/
def absorbChunks : Nat → List Nat → List Nat → List Nat
  | 0, s, _ => s
  | n + 1, s, data => absorbChunks n (absorbBlock s (data.take 136)) (data.drop 136)

/-- SHA3-256 of a byte sequence: 32 output bytes. -/
def sha3_256 (data : List Nat) : List Nat :=
  let padded := sha3Pad data
  let st := absorbChunks (padded.length / 136) (List.replicate 25 0) padded
  (List.range 32).map fun i => (st.getD (i / 8) 0 >>> (8 * (i % 8))) % 256

/-! ## Hex encoding (the source's `hex` module) -/

/-- One lowercase hex digit for a nibble. -/
def hexDigit (n : Nat) : Char :=
  if n < 10 then Char.ofNat (48 + n) else Char.ofNat (87 + n)

/-- `{:02x}` formatting of each byte in sequence. -/
def hexEncodeChars : List Nat → List Char
  | [] => []
  | b :: bs => hexDigit (b / 16) :: hexDigit (b % 16) :: hexEncodeChars bs

/-- `hex::encode`: lowercase hex string of a byte sequence. -/
def hex.encode (bytes : List Nat) : String :=
  String.mk (hexEncodeChars bytes)

/-! ## Data model and operations of the core -/

/-- `ProofData` (the spec's ProofRecord). -/
structure ProofData where
  model_hash : String
  proof_hash : String
  input_hash : String
  output_hash : String
  timestamp : Nat
  verified : Bool
deriving DecidableEq, Repr

/-- `ProofData::new`: stores every field unchanged, no validation. -/
def ProofData.new (model_hash proof_hash input_hash output_hash : String)
    (timestamp : Nat) (verified : Bool) : ProofData :=
  ⟨model_hash, proof_hash, input_hash, output_hash, timestamp, verified⟩

/-- `WasmVerifier`: holds only the bound model hash. -/
structure WasmVerifier where
  model_hash : String
deriving DecidableEq, Repr

/-- `WasmVerifier::new`: stores the string unchanged, no validation. -/
def WasmVerifier.new (model_hash : String) : WasmVerifier :=
  ⟨model_hash⟩

/-- `WasmVerifier::hash_bytes`: SHA3-256, hex-encoded with a `0x` prefix. -/
def WasmVerifier.hash_bytes (data : List Nat) : String :=
  "0x" ++ hex.encode (sha3_256 data)

/-- Exported `hash_data`: same computation as `hash_bytes`. -/
def hash_data (data : List Nat) : String :=
  "0x" ++ hex.encode (sha3_256 data)

/-- The age computed in `verify`: `current_time.saturating_sub(timestamp)`
(`Nat` subtraction is exactly saturating subtraction). -/
def age_ms (current_time timestamp : Nat) : Nat :=
  current_time - timestamp

/-- `WasmVerifier::verify`: the five checks, short-circuiting to `Ok(false)`;
the clock read is the explicit `current_time` argument. -/
def WasmVerifier.verify (self : WasmVerifier) (proof_data : ProofData)
    (input_bytes output_bytes : List Nat) (current_time : Nat) :
    Except String Bool :=
  if proof_data.model_hash ≠ self.model_hash then Except.ok false
  else if WasmVerifier.hash_bytes input_bytes ≠ proof_data.input_hash then Except.ok false
  else if WasmVerifier.hash_bytes output_bytes ≠ proof_data.output_hash then Except.ok false
  else if age_ms current_time proof_data.timestamp > 3600000 then Except.ok false
  else if !proof_data.verified then Except.ok false
  else Except.ok true

/-- `WasmVerifier::verify_json`, with the external `serde_json` decoder
abstracted as a `decode` argument (the spec places record (de)serialization
outside the core); the error message format follows the source. -/
def WasmVerifier.verify_json (decode : String → Except String ProofData)
    (self : WasmVerifier) (proof_json : String)
    (input_bytes output_bytes : List Nat) (current_time : Nat) :
    Except String Bool :=
  match decode proof_json with
  | Except.error e => Except.error ("Failed to parse proof JSON: " ++ e)
  | Except.ok proof_data => self.verify proof_data input_bytes output_bytes current_time

/-! ## `info` and Rust string slicing

`info` formats `&self.model_hash[..16]`.  Rust byte-slicing a `String`
panics unless byte 16 is a character boundary (which requires the UTF-8
length to be at least 16); we model the panic as `none`. -/

/-- UTF-8 encoded length of one character. -/
def charUtf8Len (c : Char) : Nat :=
  if c.toNat < 0x80 then 1
  else if c.toNat < 0x800 then 2
  else if c.toNat < 0x10000 then 3
  else 4

/-- `takeBytes n cs`: the character run covering exactly the first `n`
UTF-8 bytes, or `none` when `n` is not a character boundary (Rust
`&s[..n]` panics exactly in the `none` case). -/
def takeBytes (n : Nat) : List Char → Option (List Char)
  | [] => if n = 0 then some [] else none
  | c :: cs =>
    if n = 0 then some []
    else if charUtf8Len c ≤ n then (takeBytes (n - charUtf8Len c) cs).map (c :: ·)
    else none

/-- `WasmVerifier::info`: `none` models the slicing panic on
`&self.model_hash[..16]`. -/
def WasmVerifier.info (self : WasmVerifier) : Option String :=
  (takeBytes 16 self.model_hash.data).map fun cs =>
    "WASM Verifier for model: " ++ String.mk cs ++
      "...\nVerifies: Model binding, I/O integrity, Proof validity, Timestamp"

/-! ## Statement-side helpers (used only to phrase properties) -/

/-- A character is a lowercase hexadecimal digit (`0`–`9` or `a`–`f`). -/
def isLowerHexChar (c : Char) : Bool :=
  (48 ≤ c.toNat && c.toNat ≤ 57) || (97 ≤ c.toNat && c.toNat ≤ 102)

/-- ASCII lowercasing of one character. -/
def lowerChar (c : Char) : Char :=
  if 65 ≤ c.toNat ∧ c.toNat ≤ 90 then Char.ofNat (c.toNat + 32) else c

/-- ASCII lowercasing of a string. -/
def lowerStr (s : String) : String :=
  String.mk (s.data.map lowerChar)

/-! ## Helper lemmas -/

theorem hash_bytes_eq_hash_data (d : List Nat) :
    WasmVerifier.hash_bytes d = hash_data d := rfl

theorem verify_isOk (v : WasmVerifier) (r : ProofData) (i o : List Nat) (t : Nat) :
    ∃ b : Bool, v.verify r i o t = Except.ok b := by
  simp only [WasmVerifier.verify]
  split_ifs <;> exact ⟨_, rfl⟩

theorem verify_ok_true_iff (v : WasmVerifier) (r : ProofData)
    (i o : List Nat) (t : Nat) :
    v.verify r i o t = Except.ok true ↔
      (r.model_hash = v.model_hash ∧
       hash_data i = r.input_hash ∧
       hash_data o = r.output_hash ∧
       age_ms t r.timestamp ≤ 3600000 ∧
       r.verified = true) := by
  simp only [WasmVerifier.verify, hash_bytes_eq_hash_data]
  split_ifs with h1 h2 h3 h4 h5 <;>
    simp_all [not_lt, Except.ok.injEq]


/-! ## Claim theorems -/

/-- Claim C1: `verify` returns `Ok(true)` if and only if all five conditions
hold — model-hash equality with the verifier's bound hash, input-hash match,
output-hash match, saturating age at most 3,600,000 ms, and the `verified`
flag — and any single failing condition yields `Ok(false)`. -/
theorem c1_verify_true_iff_five_conditions (v : WasmVerifier) (r : ProofData)
    (input_bytes output_bytes : List Nat) (current_time : Nat) :
    v.verify r input_bytes output_bytes current_time = Except.ok true ↔
      (r.model_hash = v.model_hash ∧
       hash_data input_bytes = r.input_hash ∧
       hash_data output_bytes = r.output_hash ∧
       current_time - r.timestamp ≤ 3600000 ∧
       r.verified = true) :=
  verify_ok_true_iff v r input_bytes output_bytes current_time

/-- Claim C2: with the other four checks passing, a record of age exactly
3,600,000 ms is accepted and one of age 3,600,001 ms is rejected, and the
age is a saturating subtraction that is zero whenever the clock is at or
before the timestamp. -/
theorem c2_freshness_boundary (v : WasmVerifier) (r : ProofData)
    (i o : List Nat)
    (h1 : r.model_hash = v.model_hash)
    (h2 : hash_data i = r.input_hash)
    (h3 : hash_data o = r.output_hash)
    (h5 : r.verified = true) :
    v.verify r i o (r.timestamp + 3600000) = Except.ok true ∧
    v.verify r i o (r.timestamp + 3600001) = Except.ok false ∧
    ∀ current_time : Nat, current_time ≤ r.timestamp →
      age_ms current_time r.timestamp = 0 := by
  refine ⟨?_, ?_, fun ct hct => Nat.sub_eq_zero_of_le hct⟩
  · exact (verify_ok_true_iff v r i o (r.timestamp + 3600000)).2
      ⟨h1, h2, h3, by simp [age_ms], h5⟩
  · obtain ⟨b, hb⟩ := verify_isOk v r i o (r.timestamp + 3600001)
    cases b with
    | false => exact hb
    | true =>
      exfalso
      have hc := (verify_ok_true_iff v r i o (r.timestamp + 3600001)).1 hb
      have hage := hc.2.2.2.1
      simp [age_ms] at hage

theorem c2_freshness_boundary_witness :
    (WasmVerifier.new "m").verify
        (ProofData.new "m" "p" (hash_data []) (hash_data []) 0 true) [] [] 3600000 =
      Except.ok true ∧
    (WasmVerifier.new "m").verify
        (ProofData.new "m" "p" (hash_data []) (hash_data []) 0 true) [] [] 3600001 =
      Except.ok false :=
  ⟨(c2_freshness_boundary (WasmVerifier.new "m")
      (ProofData.new "m" "p" (hash_data []) (hash_data []) 0 true) [] []
      rfl rfl rfl rfl).1,
   (c2_freshness_boundary (WasmVerifier.new "m")
      (ProofData.new "m" "p" (hash_data []) (hash_data []) 0 true) [] []
      rfl rfl rfl rfl).2.1⟩

/-- Claim C6: for every well-formed record and byte sequences, `verify`
never returns the error variant — the result is always `Ok` of a boolean,
and mismatches surface as `Ok(false)`. -/
theorem c6_verify_never_errors (v : WasmVerifier) (r : ProofData)
    (i o : List Nat) (t : Nat) :
    ∃ b : Bool, v.verify r i o t = Except.ok b :=
  verify_isOk v r i o t

/-- Claim C7: the `proof_hash` field does not influence `verify` — two
records equal in every other field yield the same result for the same
verifier, bytes, and clock value. -/
theorem c7_proof_hash_irrelevant (v : WasmVerifier) (r₁ r₂ : ProofData)
    (hm : r₁.model_hash = r₂.model_hash)
    (hi : r₁.input_hash = r₂.input_hash)
    (ho : r₁.output_hash = r₂.output_hash)
    (ht : r₁.timestamp = r₂.timestamp)
    (hv : r₁.verified = r₂.verified)
    (i o : List Nat) (t : Nat) :
    v.verify r₁ i o t = v.verify r₂ i o t := by
  simp only [WasmVerifier.verify, age_ms, hm, hi, ho, ht, hv]

theorem c7_proof_hash_irrelevant_witness :
    (WasmVerifier.new "m").verify (ProofData.new "m" "p1" "i" "o" 0 true) [] [] 0 =
      (WasmVerifier.new "m").verify (ProofData.new "m" "p2" "i" "o" 0 true) [] [] 0 :=
  c7_proof_hash_irrelevant (WasmVerifier.new "m")
    (ProofData.new "m" "p1" "i" "o" 0 true) (ProofData.new "m" "p2" "i" "o" 0 true)
    rfl rfl rfl rfl rfl [] [] 0

/-- Claim C8: the core operations are deterministic — `hash_data` applied
twice to the same bytes gives identical results, and `verify` is a pure
function of the verifier, record, bytes, and clock value. -/
theorem c8_determinism (b : List Nat) (v : WasmVerifier) (r : ProofData)
    (i o : List Nat) (t : Nat) :
    hash_data b = hash_data b ∧
    v.verify r i o t = v.verify r i o t :=
  ⟨rfl, rfl⟩

/-- Claim C9: when the record's timestamp is at or after the clock value,
the saturating age is zero, the freshness check passes, and `verify` is
decided by the other four conditions alone. -/
theorem c9_future_timestamp_accepted (v : WasmVerifier) (r : ProofData)
    (i o : List Nat) (t : Nat) (h : t ≤ r.timestamp) :
    age_ms t r.timestamp = 0 ∧
    (v.verify r i o t = Except.ok true ↔
      (r.model_hash = v.model_hash ∧ hash_data i = r.input_hash ∧
       hash_data o = r.output_hash ∧ r.verified = true)) := by
  have hz : age_ms t r.timestamp = 0 := Nat.sub_eq_zero_of_le h
  refine ⟨hz, ?_⟩
  rw [verify_ok_true_iff]
  constructor
  · rintro ⟨a, hb, hc, _, e⟩
    exact ⟨a, hb, hc, e⟩
  · rintro ⟨a, hb, hc, e⟩
    exact ⟨a, hb, hc, by rw [hz]; omega, e⟩

theorem c9_future_timestamp_accepted_witness :
    (0 : Nat) ≤ 5 ∧
    (age_ms 0 5 = 0 ∧
     ((WasmVerifier.new "m").verify (ProofData.new "m" "p" "i" "o" 5 true) [] [] 0 =
         Except.ok true ↔
       ("m" = "m" ∧ hash_data [] = "i" ∧ hash_data [] = "o" ∧ true = true))) :=
  ⟨by decide,
   c9_future_timestamp_accepted (WasmVerifier.new "m")
     (ProofData.new "m" "p" "i" "o" 5 true) [] [] 0 (by decide)⟩

theorem charUtf8Len_pos (c : Char) : 1 ≤ charUtf8Len c := by
  unfold charUtf8Len
  split_ifs <;> omega

theorem takeBytes_exact (cs rest : List Char) :
    takeBytes ((cs.map charUtf8Len).sum) (cs ++ rest) = some cs := by
  induction cs with
  | nil =>
    cases rest <;> simp [takeBytes]
  | cons c cs ih =>
    have hpos := charUtf8Len_pos c
    simp only [List.map_cons, List.sum_cons, List.cons_append, takeBytes]
    rw [if_neg (by omega), if_pos (by omega : charUtf8Len c ≤ charUtf8Len c + (cs.map charUtf8Len).sum),
      Nat.add_sub_cancel_left]
    simp only [List.append_eq]
    rw [ih]
    rfl

/-- Claim C3 counterexample: `info` on a verifier built from the empty
string hits the panicking slice `&self.model_hash[..16]` (modelled as
`none`), so not every adversarial input is handled without a fatal
condition. -/
theorem c3_info_panics_on_short_hash :
    (WasmVerifier.new "").info = none := rfl

/-- Claim C3 (amended): every core operation other than `info` completes on
all inputs by returning a value, `Ok(false)`, or a parse error; `info`
completes exactly when the bound model hash has a UTF-8 character boundary
at byte 16 — in particular it completes for every model hash that is at
least 16 bytes long with such a boundary, and standard `0x`-prefixed
digests qualify. -/
theorem c3_no_panic_amended (s : String) (r : ProofData) (i o : List Nat)
    (t : Nat) (cs rest : List Char) (hsplit : s.data = cs ++ rest)
    (hlen : (cs.map charUtf8Len).sum = 16) :
    (∃ b : Bool, (WasmVerifier.new s).verify r i o t = Except.ok b) ∧
    ((WasmVerifier.new s).info).isSome = true := by
  refine ⟨verify_isOk _ r i o t, ?_⟩
  simp only [WasmVerifier.info, WasmVerifier.new]
  rw [hsplit, ← hlen, takeBytes_exact]
  rfl

theorem c3_no_panic_amended_witness :
    (∃ b : Bool, (WasmVerifier.new "0x1234567890abcd").verify
        (ProofData.new "m" "p" "i" "o" 0 true) [] [] 0 = Except.ok b) ∧
    ((WasmVerifier.new "0x1234567890abcd").info).isSome = true :=
  c3_no_panic_amended "0x1234567890abcd" (ProofData.new "m" "p" "i" "o" 0 true)
    [] [] 0 "0x1234567890abcd".data [] (List.append_nil _).symm (by decide)

/-- Claim C4: `verify_json` fails exactly when the decoder fails, with the
source's descriptive message wrapping the decoder's error; on success its
result is `verify` on the decoded record with the same bytes and clock. -/
theorem c4_verify_json_delegates (decode : String → Except String ProofData)
    (v : WasmVerifier) (s : String) (i o : List Nat) (t : Nat) :
    (∀ e, decode s = Except.error e →
      WasmVerifier.verify_json decode v s i o t =
        Except.error ("Failed to parse proof JSON: " ++ e)) ∧
    (∀ r, decode s = Except.ok r →
      WasmVerifier.verify_json decode v s i o t = v.verify r i o t) ∧
    ((∃ e, WasmVerifier.verify_json decode v s i o t = Except.error e) ↔
      (∃ e, decode s = Except.error e)) := by
  refine ⟨fun e he => by simp [WasmVerifier.verify_json, he],
    fun r hr => by simp [WasmVerifier.verify_json, hr], ?_⟩
  cases hd : decode s with
  | error e => simp [WasmVerifier.verify_json, hd]
  | ok r =>
    obtain ⟨b, hb⟩ := verify_isOk v r i o t
    simp [WasmVerifier.verify_json, hd, hb]

theorem c4_verify_json_delegates_witness :
    WasmVerifier.verify_json (fun _ => Except.error "expected value at line 1 column 2")
      (WasmVerifier.new "m") "\x7bnot json" [] [] 0 =
      Except.error ("Failed to parse proof JSON: " ++ "expected value at line 1 column 2") :=
  (c4_verify_json_delegates (fun _ => Except.error "expected value at line 1 column 2")
    (WasmVerifier.new "m") "\x7bnot json" [] [] 0).1
    "expected value at line 1 column 2" rfl

theorem hexDigit_lower (n : Nat) (h : n < 16) :
    isLowerHexChar (hexDigit n) = true := by
  interval_cases n <;> decide

theorem sha3_256_len (d : List Nat) : (sha3_256 d).length = 32 := by
  simp [sha3_256]

theorem sha3_256_byte_lt (d : List Nat) : ∀ b ∈ sha3_256 d, b < 256 := by
  intro b hb
  simp only [sha3_256, List.mem_map] at hb
  obtain ⟨i, _, rfl⟩ := hb
  exact Nat.mod_lt _ (by norm_num)

theorem hexEncodeChars_len (bs : List Nat) :
    (hexEncodeChars bs).length = 2 * bs.length := by
  induction bs with
  | nil => rfl
  | cons b bs ih => simp [hexEncodeChars, ih]; omega

theorem hexEncodeChars_lower (bs : List Nat) (h : ∀ b ∈ bs, b < 256) :
    ∀ c ∈ hexEncodeChars bs, isLowerHexChar c = true := by
  induction bs with
  | nil => intro c hc; cases hc
  | cons b bs ih =>
    intro c hc
    have hb : b < 256 := h b (List.mem_cons_self b bs)
    simp only [hexEncodeChars, List.mem_cons] at hc
    rcases hc with rfl | rfl | hc
    · exact hexDigit_lower _ (by omega)
    · exact hexDigit_lower _ (Nat.mod_lt _ (by norm_num))
    · exact ih (fun x hx => h x (List.mem_cons_of_mem _ hx)) c hc

theorem hash_data_chars (d : List Nat) :
    (hash_data d).data = '0' :: 'x' :: hexEncodeChars (sha3_256 d) := rfl

/-- Claim C5: for every byte sequence — the empty one included —
`hash_data` totally computes a string of the form `0x` followed by exactly
64 lowercase hexadecimal characters. -/
theorem c5_hash_output_format (data : List Nat) :
    (hash_data data).length = 66 ∧
    (hash_data data).data.take 2 = ['0', 'x'] ∧
    (hash_data data).data.drop 2 = hexEncodeChars (sha3_256 data) ∧
    ((hash_data data).data.drop 2).length = 64 ∧
    ∀ c ∈ (hash_data data).data.drop 2, isLowerHexChar c = true := by
  have hlen : (hexEncodeChars (sha3_256 data)).length = 64 := by
    rw [hexEncodeChars_len, sha3_256_len]
  refine ⟨?_, ?_, ?_, ?_, ?_⟩
  · show (hash_data data).data.length = 66
    rw [hash_data_chars]
    simp [hlen]
  · rw [hash_data_chars]
    rfl
  · rw [hash_data_chars]
    rfl
  · rw [hash_data_chars]
    exact hlen
  · rw [hash_data_chars]
    exact hexEncodeChars_lower _ (sha3_256_byte_lt data)

instance instDecEqExceptStringBool : DecidableEq (Except String Bool) := fun a b =>
  match a, b with
  | Except.error x, Except.error y =>
    if h : x = y then isTrue (by rw [h]) else isFalse (by intro hc; cases hc; exact h rfl)
  | Except.ok x, Except.ok y =>
    if h : x = y then isTrue (by rw [h]) else isFalse (by intro hc; cases hc; exact h rfl)
  | Except.error x, Except.ok y => isFalse (by intro hc; cases hc)
  | Except.ok x, Except.error y => isFalse (by intro hc; cases hc)

set_option maxRecDepth 100000 in
/-- Claim C10: neither constructor validates digest format — every string is
stored as given — and `verify` compares hash fields by exact string
equality: a stored input hash that denotes the same digest as the computed
one but in uppercase (it lowercases to exactly the computed `hash_data []`)
makes `verify` return `Ok(false)`. -/
theorem c10_no_digest_validation :
    (∀ s : String, (WasmVerifier.new s).model_hash = s) ∧
    (∀ m p i o : String, ∀ ts : Nat, ∀ vf : Bool,
      (ProofData.new m p i o ts vf).model_hash = m ∧
      (ProofData.new m p i o ts vf).input_hash = i ∧
      (ProofData.new m p i o ts vf).output_hash = o) ∧
    "0xA7FFC6F8BF1ED76651C14756A061D662F580FF4DE43B49FA82D80A4B80F8434A" ≠ hash_data [] ∧
    lowerStr "0xA7FFC6F8BF1ED76651C14756A061D662F580FF4DE43B49FA82D80A4B80F8434A" = hash_data [] ∧
    (WasmVerifier.new "m").verify
      (ProofData.new "m" "p"
        "0xA7FFC6F8BF1ED76651C14756A061D662F580FF4DE43B49FA82D80A4B80F8434A"
        (hash_data []) 0 true) [] [] 0 = Except.ok false :=
  ⟨fun s => rfl, fun m p i o ts vf => ⟨rfl, rfl, rfl⟩, by decide, by decide, by decide⟩
